import Mathlib

/-!
Verification of the inline-completion orchestration core of the repository
(`cody`): the artificial-delay engine, the context-strategy factory, the
completion-provider registration, the multi-model comparison dispatcher,
the Ollama prompt-context snippet budgeting, and the per-language document
filters. Each definition is a shallow embedding of the corresponding
TypeScript function; machine-level details (promises, observables, VS Code
objects) are modelled by explicit state passing, `Except`, and plain data.
-/

/-! ## Artificial delay engine -/

/-- Feature flags consumed by the artificial-delay engine.  Mirrors the
`LatencyFeatureFlags` object used by the test file
`vscode/src/completions/artificial-delay.test.ts` (only the `user` flag is
carried; the disable-delay flag is passed as a separate boolean argument,
exactly as in the calls of the test file `getArtificialDelay(featureFlags, uri,
languageId, isDisabled, nodeType?)`). -/
structure LatencyFeatureFlags where
  user : Bool

/-- Modelled from the spec: `artificial-delay.ts` is not present under
`src/` (only its test file is), so the fixed low-performance language set is
taken from the words of the spec (section 4.4: baseline 1000ms "if languageId is
in the fixed low-performance set (e.g. CSS/HTML-like languages)") together
with the membership facts asserted by the in-repo test
(`css` is in the set; `typescript` and `go` are not). -/
def lowPerformanceLanguageIds : List String :=
  ["css", "html", "scss", "vue", "dart", "json", "yaml", "postcss",
   "markdown", "plaintext", "xml", "twig", "jsonc", "handlebars"]

/-- The idle window after which the per-URI rejection counter resets: 5 minutes.
The threshold is taken inclusive (reset once at least 5 minutes elapsed)
because the in-repo test `artificial-delay.test.ts` advances the fake clock
by exactly `5 * 60 * 1000` ms past the last call and expects the reset. -/
def sessionResetMs : Nat := 5 * 60 * 1000

/-- The hard cap on the returned artificial delay, in milliseconds. -/
def maxLatencyMs : Nat := 1400

/-- Per-URI delay state: the consecutive-rejection counter for the URI and
the timestamp (ms) of the most recent `getArtificialDelay` call for it. -/
structure UriDelayState where
  rejectionStreak : Nat
  lastCallAt : Nat
deriving DecidableEq

/-- The whole mutable state of the engine: a finite map from URI to its
`UriDelayState`, as an association list. -/
def DelayEngineState : Type := List (String × UriDelayState)

/-- Look up the delay state recorded for a URI. -/
def lookupUri (s : DelayEngineState) (uri : String) : Option UriDelayState :=
  match s with
  | [] => Option.none
  | (k, v) :: rest => if k = uri then Option.some v else lookupUri rest uri

/-- Replace (or insert) the delay state recorded for a URI. -/
def updateUri (s : DelayEngineState) (uri : String) (st : UriDelayState) :
    DelayEngineState :=
  match s with
  | [] => [(uri, st)]
  | (k, v) :: rest =>
      if k = uri then (uri, st) :: rest else (k, v) :: updateUri rest uri st

/-- Modelled from the spec: baseline delay (section 4.4 step 2): 1000ms if
the language is in the fixed low-performance set OR the last visited node
type is "comment"; else 0. -/
def baselineFor (languageId : String) (nodeType : Option String) : Nat :=
  if languageId ∈ lowPerformanceLanguageIds ∨ nodeType = Option.some ("comment")
  then 1000 else 0

/-- Modelled from the spec: the user-latency contribution (section 4.4
step 3): 50ms per rejected suggestion beyond the 5th consecutive rejection
(so `50 * (streak - 4)` once the streak reaches 5, and 0 below that). -/
def userLatencyFor (streak : Nat) : Nat :=
  if 5 ≤ streak then 50 * (streak - 4) else 0

/-- Modelled from the spec: `getArtificialDelay` from the missing source
file `artificial-delay.ts` (section 4.4 of the spec; its observable
behaviour is pinned down by the in-repo test
`vscode/src/completions/artificial-delay.test.ts`).
Steps: (1) if the disable-delay flag is set, return 0 and leave all state
untouched; (2) compute the baseline from language/node type; (3) read the
per-URI rejection streak, treating it as 0 when the URI is unseen or at least
5 idle minutes elapsed since its last call; (4) add the user-latency
contribution when the user flag is on; (5) clamp the total at 1400ms.
Every non-disabled call increments the streak of the URI and stamps the call
time.  Returns the delay together with the successor state. -/
def getArtificialDelay (flags : LatencyFeatureFlags) (s : DelayEngineState)
    (now : Nat) (uri languageId : String) (isDelayDisabled : Bool)
    (nodeType : Option String) : Nat × DelayEngineState :=
  if isDelayDisabled then (0, s)
  else
    let baseline := baselineFor languageId nodeType
    let streak :=
      match lookupUri s uri with
      | Option.none => 0
      | Option.some e =>
          if sessionResetMs ≤ now - e.lastCallAt then 0 else e.rejectionStreak
    let userLatency := if flags.user then userLatencyFor streak else 0
    (min (baseline + userLatency) maxLatencyMs,
     updateUri s uri ⟨streak + 1, now⟩)

/-- Modelled from the spec: `resetArtificialDelay()` zeroes the
rejection counter of every URI (called on suggestion acceptance). -/
def resetArtificialDelay : DelayEngineState := []

/-- Run `n` consecutive `getArtificialDelay` calls for one URI/language at
time 0 with no node type and the delay not disabled, returning the list of
returned delays in call order. -/
def runCalls (flags : LatencyFeatureFlags) (uri languageId : String) :
    Nat → DelayEngineState → List Nat
  | 0, _ => []
  | Nat.succ n, s =>
      let r := getArtificialDelay flags s 0 uri languageId false Option.none
      r.1 :: runCalls flags uri languageId n r.2

/-- The CSS scenario of claim C2: `n` consecutive calls for one `.css` URI
with `languageId = "css"` and flags `{user := true}`, starting from the
fresh engine state. -/
def cssDelayRun (n : Nat) : List Nat :=
  runCalls ⟨true⟩ "a.css" "css" n resetArtificialDelay

/-! ## Context strategy factory
(`vscode/src/completions/context/context-strategy.ts`) -/

/-- The `ContextStrategy` union type from `context-strategy.ts`. -/
inductive ContextStrategy where
  | lspLight
  | bfg
  | bfgMixed
  | jaccardSimilarity
  | newJaccardSimilarity
  | tsc
  | tscMixed
  | none
  | recentEdits
  | recentEdits1m
  | recentEdits5m
  | recentEditsMixed
  | recentCopy
deriving DecidableEq

/-- A context retriever, abstracted to what `getStrategy` observes of it:
an identifier for the retriever object and its
`isSupportedForLanguageId` method. -/
structure ContextRetriever where
  identifier : String
  isSupportedForLanguageId : String → Bool

/-- The retriever constructors available to the factory constructor.
`bfgRetriever` models the optional `createBfgRetriever` argument (the
retriever it would create when provided); `tscRetriever` models the result
of `loadTscRetriever()`, which may return `undefined`. -/
structure RetrieverConstructors where
  jaccardSimilarityRetriever : ContextRetriever
  lspLightRetriever : ContextRetriever
  recentEditsRetriever : Nat → ContextRetriever
  recentCopyRetriever : Nat → Nat → ContextRetriever
  bfgRetriever : Option ContextRetriever
  tscRetriever : Option ContextRetriever

/-- The fields of `DefaultContextStrategyFactory` that `getStrategy`
reads: the configured strategy and the local/graph retriever slots. -/
structure DefaultContextStrategyFactory where
  contextStrategy : ContextStrategy
  localRetriever : Option ContextRetriever
  graphRetriever : Option ContextRetriever

/-- The `DefaultContextStrategyFactory` constructor switch: which
retrievers are instantiated into the local and graph slots for each
strategy.  A strategy with no `case` (namely `new-jaccard-similarity`)
leaves both slots empty. -/
def mkDefaultContextStrategyFactory (ctors : RetrieverConstructors)
    (strategy : ContextStrategy) : DefaultContextStrategyFactory :=
  match strategy with
  | ContextStrategy.none => ⟨strategy, Option.none, Option.none⟩
  | ContextStrategy.recentEdits =>
      ⟨strategy, Option.some (ctors.recentEditsRetriever (60 * 1000)), Option.none⟩
  | ContextStrategy.recentEdits1m =>
      ⟨strategy, Option.some (ctors.recentEditsRetriever (60 * 1000)), Option.none⟩
  | ContextStrategy.recentEdits5m =>
      ⟨strategy, Option.some (ctors.recentEditsRetriever (60 * 5 * 1000)), Option.none⟩
  | ContextStrategy.recentEditsMixed =>
      ⟨strategy, Option.some (ctors.recentEditsRetriever (60 * 1000)),
       Option.some ctors.jaccardSimilarityRetriever⟩
  | ContextStrategy.tscMixed =>
      ⟨strategy, Option.some ctors.jaccardSimilarityRetriever, ctors.tscRetriever⟩
  | ContextStrategy.tsc => ⟨strategy, Option.none, ctors.tscRetriever⟩
  | ContextStrategy.bfgMixed =>
      ⟨strategy, Option.some ctors.jaccardSimilarityRetriever, ctors.bfgRetriever⟩
  | ContextStrategy.bfg =>
      ⟨strategy, Option.some ctors.jaccardSimilarityRetriever, ctors.bfgRetriever⟩
  | ContextStrategy.lspLight =>
      ⟨strategy, Option.some ctors.jaccardSimilarityRetriever,
       Option.some ctors.lspLightRetriever⟩
  | ContextStrategy.recentCopy =>
      ⟨strategy, Option.some (ctors.recentCopyRetriever (60 * 1000) 100), Option.none⟩
  | ContextStrategy.jaccardSimilarity =>
      ⟨strategy, Option.some ctors.jaccardSimilarityRetriever, Option.none⟩
  | ContextStrategy.newJaccardSimilarity => ⟨strategy, Option.none, Option.none⟩

/-- The optional-chaining guard `this.graphRetriever?.isSupportedForLanguageId(...)`:
the singleton list with the graph retriever when it exists and supports the
language, else the empty list. -/
def supportedGraphSlot (g : Option ContextRetriever) (languageId : String) :
    List ContextRetriever :=
  match g with
  | Option.some r => if r.isSupportedForLanguageId languageId then [r] else []
  | Option.none => []

/-- The guard `if (this.localRetriever) retrievers.push(this.localRetriever)`. -/
def localSlot (l : Option ContextRetriever) : List ContextRetriever :=
  match l with
  | Option.some r => [r]
  | Option.none => []

/-- The method `DefaultContextStrategyFactory.getStrategy(document)`: the switch over
the configured strategy that assembles the ordered retriever list, keyed by
the language id of the document (the only document field it reads).  A strategy
with no `case` (namely `new-jaccard-similarity`) leaves the list empty. -/
def getStrategy (f : DefaultContextStrategyFactory) (languageId : String) :
    ContextStrategy × List ContextRetriever :=
  let retrievers : List ContextRetriever :=
    match f.contextStrategy with
    | ContextStrategy.none => []
    | ContextStrategy.lspLight =>
        supportedGraphSlot f.graphRetriever languageId ++ localSlot f.localRetriever
    | ContextStrategy.bfg =>
        match supportedGraphSlot f.graphRetriever languageId with
        | [] => localSlot f.localRetriever
        | gs => gs
    | ContextStrategy.tsc =>
        supportedGraphSlot f.graphRetriever languageId ++ localSlot f.localRetriever
    | ContextStrategy.tscMixed =>
        supportedGraphSlot f.graphRetriever languageId ++ localSlot f.localRetriever
    | ContextStrategy.bfgMixed =>
        supportedGraphSlot f.graphRetriever languageId ++ localSlot f.localRetriever
    | ContextStrategy.jaccardSimilarity => localSlot f.localRetriever
    | ContextStrategy.recentEdits => localSlot f.localRetriever
    | ContextStrategy.recentEdits1m => localSlot f.localRetriever
    | ContextStrategy.recentEdits5m => localSlot f.localRetriever
    | ContextStrategy.recentCopy => localSlot f.localRetriever
    | ContextStrategy.recentEditsMixed =>
        localSlot f.localRetriever ++ supportedGraphSlot f.graphRetriever languageId
    | ContextStrategy.newJaccardSimilarity => []
  (f.contextStrategy, retrievers)

/-! ## Completion-provider registration
(`createInlineCompletionItemProvider` in
`create-inline-completion-item-provider.ts`) -/

/-- The distinct disposables that the `createDisposables` callback of
`createInlineCompletionItemProvider` can register. -/
inductive CompletionRegistration where
  | noopProviderRegistration
  | manualTriggerCommand
  | inlineProviderRegistration
  | autocompleteTraceView
  | completionsProviderDisposable
deriving DecidableEq

/-- The provider value produced by `createProvider()`, abstracted to an
identifier (only its nullness matters to the registration logic). -/
structure ProviderModel where
  id : String
deriving DecidableEq

/-- One step of `createInlineCompletionItemProvider` for a fixed
configuration/auth emission: given the auth state, the
`config.isRunningInsideAgent` flag and the (possibly null) provider emitted
by `createProvider()`, it either registers a list of disposables or throws.
The unauthenticated non-agent branch returns `NEVER` (no registrations),
modelled as the empty registration list. -/
def createInlineCompletionItemProviderStep (authenticated : Bool)
    (isRunningInsideAgent : Bool) (provider : Option ProviderModel) :
    Except String (List CompletionRegistration) :=
  if authenticated = false then
    if isRunningInsideAgent then
      Except.ok [CompletionRegistration.noopProviderRegistration]
    else Except.ok []
  else
    match provider with
    | Option.some _ =>
        Except.ok
          [CompletionRegistration.manualTriggerCommand,
           CompletionRegistration.inlineProviderRegistration,
           CompletionRegistration.autocompleteTraceView,
           CompletionRegistration.completionsProviderDisposable]
    | Option.none =>
        if isRunningInsideAgent then
          Except.error
            "Cannot register completion provider because providerConfig evaluated to null"
        else Except.ok []

/-! ## Multi-model comparison dispatcher
(`triggerMultiModelAutocompletionsForComparison` in
`create-inline-completion-item-multiple-providers.ts`) -/

/-- The per-provider comparison result record
(`MultiModelCompletionsResults`). -/
structure MultiModelCompletionsResults where
  provider : String
  model : String
  contextStrategy : String
  completion : String
deriving DecidableEq

/-- JavaScript `Promise.all` over already-settled branches: succeeds with
the list of all fulfilment values exactly when every branch fulfils, and
rejects with the (first) rejection reason as soon as any branch rejects. -/
def promiseAll {α : Type} : List (Except String α) → Except String (List α)
  | [] => Except.ok []
  | Except.error e :: _ => Except.error e
  | Except.ok a :: rest =>
      match promiseAll rest with
      | Except.error e => Except.error e
      | Except.ok as => Except.ok (a :: as)

/-- The per-result line written into the comparison output:
`Model: ${model}\t Context: ${contextStrategy} \n${completion}\n\n`. -/
def formatCompletionResult (r : MultiModelCompletionsResults) : String :=
  "Model: " ++ r.model ++ "\t Context: " ++ r.contextStrategy ++ " \n"
    ++ r.completion ++ "\n\n"

/-- The function `triggerMultiModelAutocompletionsForComparison`, over the outcomes of
the per-provider branches (each branch being one
`manuallyGetCompletionItemsForProvider` completion pull, which settles to a
result or rejects): joins the branches with `Promise.all` and concatenates
the formatted output.  A rejected aggregate produces no output. -/
def triggerMultiModelAutocompletionsForComparison
    (branchResults : List (Except String MultiModelCompletionsResults)) :
    Except String String :=
  match promiseAll branchResults with
  | Except.error e => Except.error e
  | Except.ok completions =>
      Except.ok (completions.foldl (fun acc r => acc ++ formatCompletionResult r) "")

/-- Boolean success test for a settled promise outcome. -/
def exceptIsOk {α : Type} : Except String α → Bool
  | Except.ok _ => true
  | Except.error _ => false

/-! ## Ollama prompt-context snippet budgeting
(`ExperimentalOllamaProvider.createPromptContext` in
`experimental-ollama.ts`) -/

/-- The snippet-budget constant `maxPromptChars = 1234` from
`createPromptContext`. -/
def maxPromptChars : Nat := 1234

/-- The snippet loop of `createPromptContext`: starting from the kept list
`kept`, try the remaining snippets in priority order; each candidate is
evaluated by rendering the prompt with the extended snippet list
(`modelHelper.getOllamaPrompt({...prompt, snippets: extendedSnippets}).length`,
abstracted as the `promptLen` function of the snippet list); if the
rendered length exceeds the budget the loop breaks, otherwise the extended
list is kept and the loop continues. -/
def addSnippetsGo (promptLen : List String → Nat) (maxChars : Nat)
    (kept : List String) : List String → List String
  | [] => kept
  | s :: rest =>
      if maxChars < promptLen (kept ++ [s]) then kept
      else addSnippetsGo promptLen maxChars (kept ++ [s]) rest

/-- The snippet list assembled by `createPromptContext`: empty unless the
`OLLAMA_CONTEXT_SNIPPETS` environment variable is set, in which case the
budget loop runs with budget `maxPromptChars` starting from the empty
snippet list. -/
def createPromptContextSnippets (ollamaContextSnippetsEnv : Bool)
    (promptLen : List String → Nat) (snippets : List String) : List String :=
  if ollamaContextSnippetsEnv then
    addSnippetsGo promptLen maxPromptChars [] snippets
  else []

/-- A concrete rendered-prompt length function for the counterexample: a
document whose prefix/suffix/file-name-comment region renders to 2000
characters (well under the 10000-character `prefixChars` hint of
`ExperimentalOllamaProvider.contextSizeHints`), plus the characters of
every included snippet. -/
def promptLenLongBase (snips : List String) : Nat :=
  2000 + (snips.map String.length).sum

/-! ## Per-language document filters
(`getInlineCompletionItemProviderFilters` in
`create-inline-completion-item-provider.ts`) -/

/-- The `DISABLED_LANGUAGES` set: language ids present in
`vscode.languages.getLanguages()` but not in the public identifier list. -/
def DISABLED_LANGUAGES : List String := ["scminput"]

/-- A VS Code `DocumentFilter` as built by the function: a language id and
a scheme. -/
structure DocumentFilter where
  language : String
  scheme : String
deriving DecidableEq

/-- Record lookup on the `autocompleteLanguages` configuration object,
modelled as an association list (JavaScript object keys are unique; lookup
takes the first binding). -/
def lookupBool : List (String × Bool) → String → Option Bool
  | [], _ => Option.none
  | (k, v) :: rest, key => if k = key then Option.some v else lookupBool rest key

/-- The per-language enablement computed inside the `flatMap` of
`getInlineCompletionItemProviderFilters`: the per-language configuration
entry when the language is absent from `DISABLED_LANGUAGES` and present in
the per-language config (the object minus its `"*"` key), otherwise the
wildcard `"*"` value (`undefined`, i.e. a missing wildcard, is falsy). -/
def languageEnabled (autocompleteLanguages : List (String × Bool))
    (language : String) : Bool :=
  let isEnabledForAll := (lookupBool autocompleteLanguages ("*")).getD false
  let perLanguageConfig := autocompleteLanguages.filter (fun p => p.1 ≠ "*")
  if language ∉ DISABLED_LANGUAGES ∧ (lookupBool perLanguageConfig language).isSome
  then (lookupBool perLanguageConfig language).getD false
  else isEnabledForAll

/-- The function `getInlineCompletionItemProviderFilters`: for each language id reported
by `vscode.languages.getLanguages()`, emit a `{language, scheme: "file"}`
filter exactly when the enablement of the language is true. -/
def getInlineCompletionItemProviderFilters
    (autocompleteLanguages : List (String × Bool)) (languageIds : List String) :
    List DocumentFilter :=
  match languageIds with
  | [] => []
  | language :: rest =>
      (if languageEnabled autocompleteLanguages language
       then [DocumentFilter.mk language ("file")] else [])
        ++ getInlineCompletionItemProviderFilters autocompleteLanguages rest

/-! ## Helper lemmas -/

/-- The baseline is always at most the 1400ms cap. -/
theorem baselineFor_le_cap (languageId : String) (nodeType : Option String) :
    baselineFor languageId nodeType ≤ 1400 := by
  unfold baselineFor; split <;> omega

/-- Evaluation of `getArtificialDelay` when the URI has an entry and the
idle window has not elapsed: the recorded streak is used and then bumped. -/
theorem getArtificialDelay_eval_noReset (flags : LatencyFeatureFlags)
    (s : DelayEngineState) (now : Nat) (uri languageId : String)
    (nodeType : Option String) (e : UriDelayState)
    (hlook : lookupUri s uri = Option.some e)
    (hns : ¬ sessionResetMs ≤ now - e.lastCallAt) :
    getArtificialDelay flags s now uri languageId false nodeType
      = (min (baselineFor languageId nodeType
            + (if flags.user then userLatencyFor e.rejectionStreak else 0))
           maxLatencyMs,
         updateUri s uri ⟨e.rejectionStreak + 1, now⟩) := by
  simp [getArtificialDelay, hlook, hns]

/-- Evaluation of `getArtificialDelay` when the URI has an entry but the
idle window elapsed: the streak is treated as 0 and the call returns
exactly the baseline. -/
theorem getArtificialDelay_eval_reset (flags : LatencyFeatureFlags)
    (s : DelayEngineState) (now : Nat) (uri languageId : String)
    (nodeType : Option String) (e : UriDelayState)
    (hlook : lookupUri s uri = Option.some e)
    (hrs : sessionResetMs ≤ now - e.lastCallAt) :
    (getArtificialDelay flags s now uri languageId false nodeType).1
      = baselineFor languageId nodeType := by
  have hb := baselineFor_le_cap languageId nodeType
  simp [getArtificialDelay, hlook, hrs, userLatencyFor, maxLatencyMs]
  omega

/-- Evaluation of `getArtificialDelay` for a URI with no recorded entry:
the streak is 0 and the call returns exactly the baseline. -/
theorem getArtificialDelay_eval_fresh (flags : LatencyFeatureFlags)
    (s : DelayEngineState) (now : Nat) (uri languageId : String)
    (nodeType : Option String) (hlook : lookupUri s uri = Option.none) :
    (getArtificialDelay flags s now uri languageId false nodeType).1
      = baselineFor languageId nodeType := by
  have hb := baselineFor_le_cap languageId nodeType
  simp [getArtificialDelay, hlook, userLatencyFor, maxLatencyMs]
  omega

/-- Lemma: `updateUri` leaves the entries of every other URI unchanged. -/
theorem lookupUri_updateUri_ne (s : DelayEngineState) (uri uri2 : String)
    (st : UriDelayState) (hne : uri2 ≠ uri) :
    lookupUri (updateUri s uri st) uri2 = lookupUri s uri2 := by
  induction s with
  | nil =>
      simp only [updateUri, lookupUri]
      rw [if_neg (fun h => hne h.symm)]
  | cons p rest ih =>
      obtain ⟨k, v⟩ := p
      by_cases hk : k = uri
      · subst hk
        have hk2 : ¬ k = uri2 := fun h => hne h.symm
        simp [updateUri, lookupUri, hk2]
      · simp [updateUri, lookupUri, hk, ih]

/-! ## Claim theorems: artificial delay -/

/-- Claim C1: with the user-latency flag enabled and the disable-delay flag
off, for every URI and languageId, while the consecutive rejection
count `r` of the URI is below 5 the returned delay is exactly the baseline (0 extra
milliseconds), and once `r ≥ 5` the user-latency contribution is exactly
`50 * (r - 4)` with the total of baseline plus user latency clamped at
1400ms; the returned delay never exceeds 1400ms. -/
theorem getArtificialDelay_user_latency_formula (s : DelayEngineState)
    (now : Nat) (uri languageId : String) (nodeType : Option String)
    (e : UriDelayState) (hlook : lookupUri s uri = Option.some e)
    (hfresh : now - e.lastCallAt < sessionResetMs) :
    (e.rejectionStreak < 5 →
      (getArtificialDelay ⟨true⟩ s now uri languageId false nodeType).1
        = baselineFor languageId nodeType)
    ∧ (5 ≤ e.rejectionStreak →
      (getArtificialDelay ⟨true⟩ s now uri languageId false nodeType).1
        = min (baselineFor languageId nodeType + 50 * (e.rejectionStreak - 4))
            1400)
    ∧ (getArtificialDelay ⟨true⟩ s now uri languageId false nodeType).1
        ≤ 1400 := by
  have hb := baselineFor_le_cap languageId nodeType
  have hns : ¬ sessionResetMs ≤ now - e.lastCallAt := not_le.mpr hfresh
  rw [getArtificialDelay_eval_noReset ⟨true⟩ s now uri languageId nodeType e
    hlook hns]
  refine ⟨?_, ?_, ?_⟩
  · intro hr
    have hu : userLatencyFor e.rejectionStreak = 0 := by
      unfold userLatencyFor; rw [if_neg (by omega)]
    simp [hu, maxLatencyMs]
    omega
  · intro hr
    have hu : userLatencyFor e.rejectionStreak = 50 * (e.rejectionStreak - 4) := by
      unfold userLatencyFor; rw [if_pos hr]
    simp [hu, maxLatencyMs]
  · simp [maxLatencyMs]

/-- Witness for claim C1 at a concrete input: URI `a.ts` with a recorded
streak of 7 and no idle reset; the call returns
`min (baseline + 50 * (7 - 4)) 1400`. -/
theorem getArtificialDelay_user_latency_formula_witness :
    lookupUri [("a.ts", UriDelayState.mk 7 0)] "a.ts"
      = Option.some (UriDelayState.mk 7 0)
    ∧ (1000 : Nat) - 0 < sessionResetMs
    ∧ (5 : Nat) ≤ 7
    ∧ (getArtificialDelay ⟨true⟩ [("a.ts", UriDelayState.mk 7 0)] 1000 "a.ts"
        "typescript" false Option.none).1
      = min (baselineFor ("typescript") Option.none + 50 * (7 - 4)) 1400 :=
  ⟨by decide, by decide, by decide,
   (getArtificialDelay_user_latency_formula [("a.ts", UriDelayState.mk 7 0)]
      1000 "a.ts" "typescript" Option.none (UriDelayState.mk 7 0) (by decide)
      (by decide)).2.1 (by decide)⟩

/-- Claim C2 counterexample: in the CSS scenario (languageId `"css"`, flags
`{user := true}`, one URI, fresh state) the ninth consecutive call returns
1200, not 1400 as the claim states. -/
theorem cssDelayRun_ninth_call_is_1200 :
    cssDelayRun 9 = [1000, 1000, 1000, 1000, 1000, 1050, 1100, 1150, 1200]
    ∧ (cssDelayRun 9).getLast? ≠ Option.some 1400 := by
  constructor <;> decide

/-- Claim C2 (amended): in the CSS scenario the first five calls return
1000 each, the sixth returns 1050 and the delay then grows by 50 per call,
reaching the 1400 cap for the first time at the thirteenth call (the ninth
returns 1200); after `resetArtificialDelay()` the next call returns 1000
again. -/
theorem cssDelayRun_scenario :
    cssDelayRun 13
      = [1000, 1000, 1000, 1000, 1000, 1050, 1100, 1150, 1200, 1250, 1300,
         1350, 1400]
    ∧ (getArtificialDelay ⟨true⟩ resetArtificialDelay 0 "a.css" "css" false
        Option.none).1 = 1000 := by
  constructor <;> decide

/-- Claim C7: for every URI with a recorded entry, if more than 5 minutes
elapse with no calls for that URI then the next call returns exactly the
baseline for its languageId/nodeType regardless of the prior streak, while
an idle gap of only 3 minutes leaves the result identical to an immediate
call (no reset). -/
theorem getArtificialDelay_idle_reset (flags : LatencyFeatureFlags)
    (s : DelayEngineState) (now : Nat) (uri languageId : String)
    (nodeType : Option String) (e : UriDelayState)
    (hlook : lookupUri s uri = Option.some e)
    (hidle : sessionResetMs < now - e.lastCallAt) :
    (getArtificialDelay flags s now uri languageId false nodeType).1
      = baselineFor languageId nodeType
    ∧ (getArtificialDelay flags s (e.lastCallAt + 3 * 60 * 1000) uri
        languageId false nodeType).1
      = (getArtificialDelay flags s e.lastCallAt uri languageId false
          nodeType).1 := by
  constructor
  · exact getArtificialDelay_eval_reset flags s now uri languageId nodeType e
      hlook (le_of_lt hidle)
  · have h3 : ¬ sessionResetMs ≤ e.lastCallAt + 3 * 60 * 1000 - e.lastCallAt := by
      unfold sessionResetMs; omega
    have h0 : ¬ sessionResetMs ≤ e.lastCallAt - e.lastCallAt := by
      unfold sessionResetMs; omega
    rw [getArtificialDelay_eval_noReset flags s (e.lastCallAt + 3 * 60 * 1000)
        uri languageId nodeType e hlook h3,
      getArtificialDelay_eval_noReset flags s e.lastCallAt uri languageId
        nodeType e hlook h0]

/-- Witness for claim C7 at a concrete input: URI `a.css` with streak 20,
last call at time 0 and the next call at 400000ms (more than 5 idle
minutes): the call returns the css baseline. -/
theorem getArtificialDelay_idle_reset_witness :
    lookupUri [("a.css", UriDelayState.mk 20 0)] "a.css"
      = Option.some (UriDelayState.mk 20 0)
    ∧ sessionResetMs < 400000 - 0
    ∧ (getArtificialDelay ⟨true⟩ [("a.css", UriDelayState.mk 20 0)] 400000
        "a.css" "css" false Option.none).1 = baselineFor ("css") Option.none :=
  ⟨by decide, by decide,
   (getArtificialDelay_idle_reset ⟨true⟩ [("a.css", UriDelayState.mk 20 0)]
      400000 "a.css" "css" Option.none (UriDelayState.mk 20 0) (by decide)
      (by decide)).1⟩

/-- Claim C8: rejection streaks are tracked per URI independently: the
first call for a URI with no recorded entry returns the baseline only
(streak 0), and a call for one URI leaves the recorded state of every other
URI unchanged. -/
theorem getArtificialDelay_per_uri_streaks (flags : LatencyFeatureFlags)
    (s : DelayEngineState) (now : Nat) (uri languageId : String)
    (isDelayDisabled : Bool) (nodeType : Option String) :
    (lookupUri s uri = Option.none →
      (getArtificialDelay flags s now uri languageId false nodeType).1
        = baselineFor languageId nodeType)
    ∧ (∀ uri2, uri2 ≠ uri →
        lookupUri (getArtificialDelay flags s now uri languageId
          isDelayDisabled nodeType).2 uri2 = lookupUri s uri2) := by
  constructor
  · intro hlook
    exact getArtificialDelay_eval_fresh flags s now uri languageId nodeType hlook
  · intro uri2 hne
    unfold getArtificialDelay
    split
    · rfl
    · exact lookupUri_updateUri_ne s uri uri2 _ hne

/-- Witness for claim C8 at a concrete input: state holding only URI
`b.ts`; a call for the unseen URI `a.ts` returns the typescript baseline
and leaves the entry of `b.ts` unchanged. -/
theorem getArtificialDelay_per_uri_streaks_witness :
    lookupUri [("b.ts", UriDelayState.mk 9 0)] "a.ts" = Option.none
    ∧ "b.ts" ≠ "a.ts"
    ∧ (getArtificialDelay ⟨true⟩ [("b.ts", UriDelayState.mk 9 0)] 0 "a.ts"
        "typescript" false Option.none).1
      = baselineFor ("typescript") Option.none
    ∧ lookupUri (getArtificialDelay ⟨true⟩ [("b.ts", UriDelayState.mk 9 0)] 0
        "a.ts" "typescript" false Option.none).2 "b.ts"
      = lookupUri [("b.ts", UriDelayState.mk 9 0)] "b.ts" :=
  ⟨by decide, by decide,
   (getArtificialDelay_per_uri_streaks ⟨true⟩ [("b.ts", UriDelayState.mk 9 0)]
      0 "a.ts" "typescript" false Option.none).1 (by decide),
   (getArtificialDelay_per_uri_streaks ⟨true⟩ [("b.ts", UriDelayState.mk 9 0)]
      0 "a.ts" "typescript" false Option.none).2 "b.ts" (by decide)⟩

/-! ## Claim theorems: context strategy factory -/

/-- Claim C3: for every configured strategy name, `getStrategy` returns the
retriever list prescribed by the composition table: `none` returns no
retrievers; `jaccard-similarity`, `recent-copy` and the `recent-edits`
variants return only the local retriever; `lsp-light` returns graph first
then local when the graph retriever supports the language, else local only;
`bfg` returns exactly one of the graph retriever (language supported) or
the local fallback, never both; the mixed strategies (`bfg-mixed`,
`tsc-mixed`, `recent-edits-mixed`) return both retrievers when the graph
retriever supports the language and only the local retriever otherwise. -/
theorem getStrategy_composition_table (ctors : RetrieverConstructors)
    (languageId : String) :
    (getStrategy (mkDefaultContextStrategyFactory ctors ContextStrategy.none)
        languageId).2 = []
    ∧ (getStrategy (mkDefaultContextStrategyFactory ctors
        ContextStrategy.jaccardSimilarity) languageId).2
      = [ctors.jaccardSimilarityRetriever]
    ∧ (getStrategy (mkDefaultContextStrategyFactory ctors
        ContextStrategy.recentCopy) languageId).2
      = [ctors.recentCopyRetriever (60 * 1000) 100]
    ∧ (getStrategy (mkDefaultContextStrategyFactory ctors
        ContextStrategy.recentEdits) languageId).2
      = [ctors.recentEditsRetriever (60 * 1000)]
    ∧ (getStrategy (mkDefaultContextStrategyFactory ctors
        ContextStrategy.recentEdits1m) languageId).2
      = [ctors.recentEditsRetriever (60 * 1000)]
    ∧ (getStrategy (mkDefaultContextStrategyFactory ctors
        ContextStrategy.recentEdits5m) languageId).2
      = [ctors.recentEditsRetriever (60 * 5 * 1000)]
    ∧ (getStrategy (mkDefaultContextStrategyFactory ctors
        ContextStrategy.lspLight) languageId).2
      = (if ctors.lspLightRetriever.isSupportedForLanguageId languageId
         then [ctors.lspLightRetriever, ctors.jaccardSimilarityRetriever]
         else [ctors.jaccardSimilarityRetriever])
    ∧ (getStrategy (mkDefaultContextStrategyFactory ctors ContextStrategy.bfg)
        languageId).2
      = (match ctors.bfgRetriever with
         | Option.some g =>
             if g.isSupportedForLanguageId languageId then [g]
             else [ctors.jaccardSimilarityRetriever]
         | Option.none => [ctors.jaccardSimilarityRetriever])
    ∧ (getStrategy (mkDefaultContextStrategyFactory ctors ContextStrategy.bfg)
        languageId).2.length = 1
    ∧ (getStrategy (mkDefaultContextStrategyFactory ctors
        ContextStrategy.bfgMixed) languageId).2
      = (match ctors.bfgRetriever with
         | Option.some g =>
             if g.isSupportedForLanguageId languageId
             then [g, ctors.jaccardSimilarityRetriever]
             else [ctors.jaccardSimilarityRetriever]
         | Option.none => [ctors.jaccardSimilarityRetriever])
    ∧ (getStrategy (mkDefaultContextStrategyFactory ctors
        ContextStrategy.tscMixed) languageId).2
      = (match ctors.tscRetriever with
         | Option.some g =>
             if g.isSupportedForLanguageId languageId
             then [g, ctors.jaccardSimilarityRetriever]
             else [ctors.jaccardSimilarityRetriever]
         | Option.none => [ctors.jaccardSimilarityRetriever])
    ∧ (getStrategy (mkDefaultContextStrategyFactory ctors
        ContextStrategy.recentEditsMixed) languageId).2
      = (if ctors.jaccardSimilarityRetriever.isSupportedForLanguageId languageId
         then [ctors.recentEditsRetriever (60 * 1000),
               ctors.jaccardSimilarityRetriever]
         else [ctors.recentEditsRetriever (60 * 1000)]) := by
  refine ⟨rfl, rfl, rfl, rfl, rfl, rfl, ?_, ?_, ?_, ?_, ?_, ?_⟩
  · cases h : ctors.lspLightRetriever.isSupportedForLanguageId languageId <;>
      simp [getStrategy, mkDefaultContextStrategyFactory, supportedGraphSlot,
        localSlot, h]
  · cases hg : ctors.bfgRetriever with
    | none =>
        simp [getStrategy, mkDefaultContextStrategyFactory, supportedGraphSlot,
          localSlot, hg]
    | some g =>
        cases h : g.isSupportedForLanguageId languageId <;>
          simp [getStrategy, mkDefaultContextStrategyFactory,
            supportedGraphSlot, localSlot, hg, h]
  · cases hg : ctors.bfgRetriever with
    | none =>
        simp [getStrategy, mkDefaultContextStrategyFactory, supportedGraphSlot,
          localSlot, hg]
    | some g =>
        cases h : g.isSupportedForLanguageId languageId <;>
          simp [getStrategy, mkDefaultContextStrategyFactory,
            supportedGraphSlot, localSlot, hg, h]
  · cases hg : ctors.bfgRetriever with
    | none =>
        simp [getStrategy, mkDefaultContextStrategyFactory, supportedGraphSlot,
          localSlot, hg]
    | some g =>
        cases h : g.isSupportedForLanguageId languageId <;>
          simp [getStrategy, mkDefaultContextStrategyFactory,
            supportedGraphSlot, localSlot, hg, h]
  · cases hg : ctors.tscRetriever with
    | none =>
        simp [getStrategy, mkDefaultContextStrategyFactory, supportedGraphSlot,
          localSlot, hg]
    | some g =>
        cases h : g.isSupportedForLanguageId languageId <;>
          simp [getStrategy, mkDefaultContextStrategyFactory,
            supportedGraphSlot, localSlot, hg, h]
  · cases h : ctors.jaccardSimilarityRetriever.isSupportedForLanguageId
        languageId <;>
      simp [getStrategy, mkDefaultContextStrategyFactory, supportedGraphSlot,
        localSlot, h]

/-- Claim C10: `getStrategy` always reports the strategy name the factory
was configured with, and for the configured strategy
`new-jaccard-similarity` (a valid `ContextStrategy` value handled by
neither the constructor nor the `getStrategy` switch) the retriever list is
empty for every document language. -/
theorem getStrategy_name_and_new_jaccard (ctors : RetrieverConstructors)
    (strategy : ContextStrategy) (languageId : String) :
    (getStrategy (mkDefaultContextStrategyFactory ctors strategy)
        languageId).1 = strategy
    ∧ (getStrategy (mkDefaultContextStrategyFactory ctors
        ContextStrategy.newJaccardSimilarity) languageId).2 = [] := by
  constructor
  · cases strategy <;> rfl
  · rfl

/-! ## Claim theorems: provider registration -/

/-- Claim C5: when running inside the constrained agent environment
(`isRunningInsideAgent = true`), a null provider for an authenticated user
makes completion-provider registration raise a hard error; outside that
environment the same null provider registers nothing and does not throw. -/
theorem createInlineCompletionItemProvider_null_provider :
    createInlineCompletionItemProviderStep true true Option.none
      = Except.error
          "Cannot register completion provider because providerConfig evaluated to null"
    ∧ createInlineCompletionItemProviderStep true false Option.none
      = Except.ok [] := by
  constructor <;> rfl

/-! ## Claim theorems: multi-model comparison -/

/-- Sample comparison results for the concrete multi-model scenarios. -/
def comparisonResultA : MultiModelCompletionsResults :=
  ⟨"fireworks", "model-a", "bfg", "const a = 1"⟩

/-- A second sample comparison result. -/
def comparisonResultB : MultiModelCompletionsResults :=
  ⟨"anthropic", "model-b", "lsp-light", "const b = 2"⟩

/-- Lemma: `promiseAll` succeeds exactly when every branch succeeds. -/
theorem promiseAll_isOk {α : Type} (l : List (Except String α)) :
    exceptIsOk (promiseAll l) = l.all (fun b => exceptIsOk b) := by
  induction l with
  | nil => rfl
  | cons x rest ih =>
      cases x with
      | error e => rfl
      | ok a =>
          have hall : (Except.ok a :: rest).all (fun b => exceptIsOk b)
              = rest.all (fun b => exceptIsOk b) := by
            rw [List.all_cons]; rfl
          rw [hall, ← ih]
          cases h : promiseAll rest <;> simp [promiseAll, h, exceptIsOk]

/-- Lemma: `promiseAll` over all-fulfilled branches returns all values in order. -/
theorem promiseAll_map_ok {α : Type} (rs : List α) :
    promiseAll (rs.map Except.ok) = (Except.ok rs : Except String (List α)) := by
  induction rs with
  | nil => rfl
  | cons r rest ih => simp [promiseAll, ih]

/-- Claim C4 counterexample: one failing provider branch rejects the whole
`Promise.all` aggregate, so the successful result of the other provider is
discarded (no output is produced), whereas with both branches succeeding
that same result is reported; a failure in one branch therefore does
affect the results obtained from the other providers. -/
theorem promiseAll_failure_discards_other_results :
    triggerMultiModelAutocompletionsForComparison
      [Except.error ("network error"), Except.ok comparisonResultA]
      = Except.error ("network error")
    ∧ triggerMultiModelAutocompletionsForComparison
      [Except.ok comparisonResultB, Except.ok comparisonResultA]
      = Except.ok (formatCompletionResult comparisonResultB
          ++ formatCompletionResult comparisonResultA) := by
  constructor
  · rfl
  · rfl

/-- Claim C4 (amended): the aggregate result is joined with
`Promise.all`-style all-or-none completion over one completion pull per
configured provider: it succeeds exactly when every provider branch
succeeds, in which case it reports the result of every branch in order; a
failure in any branch rejects the whole aggregate, discarding the results
of the other providers. -/
theorem triggerMultiModel_all_or_none
    (branchResults : List (Except String MultiModelCompletionsResults)) :
    exceptIsOk (triggerMultiModelAutocompletionsForComparison branchResults)
      = branchResults.all (fun b => exceptIsOk b)
    ∧ (∀ rs : List MultiModelCompletionsResults,
        promiseAll (rs.map Except.ok) = Except.ok rs) := by
  constructor
  · rw [← promiseAll_isOk]
    unfold triggerMultiModelAutocompletionsForComparison
    cases h : promiseAll branchResults <;> simp [exceptIsOk]
  · exact fun rs => promiseAll_map_ok rs

/-! ## Claim theorems: prompt-context snippet budgeting -/

/-- A rendered-prompt length function for the witness: a short base region
of 100 characters plus the characters of every included snippet. -/
def promptLenShortBase (snips : List String) : Nat :=
  100 + (snips.map String.length).sum

/-- Shape of the snippet loop: the result extends `kept` by some list `t`,
and either the whole remainder was consumed (`t = rest`) or the loop
stopped exactly at the first snippet whose addition overflows the budget. -/
theorem addSnippetsGo_shape (promptLen : List String → Nat) (maxChars : Nat) :
    ∀ (rest kept : List String),
      ∃ t, addSnippetsGo promptLen maxChars kept rest = kept ++ t
        ∧ (t = rest ∨ ∃ s rest2, rest = t ++ s :: rest2
            ∧ maxChars < promptLen ((kept ++ t) ++ [s])) := by
  intro rest
  induction rest with
  | nil =>
      intro kept
      exact ⟨[], by simp [addSnippetsGo], Or.inl rfl⟩
  | cons s rest ih =>
      intro kept
      by_cases h : maxChars < promptLen (kept ++ [s])
      · refine ⟨[], by simp [addSnippetsGo, h], Or.inr ⟨s, rest, by simp, ?_⟩⟩
        simpa using h
      · obtain ⟨t, ht, hcase⟩ := ih (kept ++ [s])
        refine ⟨s :: t, ?_, ?_⟩
        · rw [addSnippetsGo, if_neg h, ht]
          simp
        · rcases hcase with h1 | ⟨s2, rest2, hr, hlen⟩
          · exact Or.inl (by rw [h1])
          · refine Or.inr ⟨s2, rest2, by rw [hr]; simp, ?_⟩
            have heq : (kept ++ [s]) ++ t = kept ++ s :: t := by simp
            rw [heq] at hlen
            exact hlen

/-- Budget invariant of the snippet loop: starting from a kept list that is
empty or within budget, the result of the loop is empty or within budget. -/
theorem addSnippetsGo_budget (promptLen : List String → Nat) (maxChars : Nat) :
    ∀ (rest kept : List String),
      (kept = [] ∨ promptLen kept ≤ maxChars) →
      (addSnippetsGo promptLen maxChars kept rest = []
        ∨ promptLen (addSnippetsGo promptLen maxChars kept rest) ≤ maxChars) := by
  intro rest
  induction rest with
  | nil =>
      intro kept h
      simpa [addSnippetsGo] using h
  | cons s rest ih =>
      intro kept h
      by_cases hc : maxChars < promptLen (kept ++ [s])
      · simpa [addSnippetsGo, hc] using h
      · have hrec := ih (kept ++ [s]) (Or.inr (not_lt.mp hc))
        simpa [addSnippetsGo, hc] using hrec

/-- Claim C6 counterexample: the budget loop only guards snippet additions;
the base prompt (prefix/suffix/headers, here rendering to 2000 characters)
is never truncated, so with an empty snippet list — and likewise when the
first snippet already overflows — the assembled prompt exceeds the 1234
character budget. -/
theorem createPromptContext_base_exceeds_budget :
    createPromptContextSnippets true promptLenLongBase [] = []
    ∧ maxPromptChars
        < promptLenLongBase (createPromptContextSnippets true
            promptLenLongBase [])
    ∧ createPromptContextSnippets true promptLenLongBase ["abc"] = []
    ∧ maxPromptChars
        < promptLenLongBase (createPromptContextSnippets true
            promptLenLongBase ["abc"]) := by
  refine ⟨rfl, by decide, by decide, by decide⟩

/-- Claim C6 (amended): context snippets are added one at a time in the
given priority order (the kept list is a prefix of the snippet list), each
addition is kept only if the resulting prompt length stays within the
configured character budget, and the process stops at the first snippet
whose addition would overflow the budget; consequently, whenever at least
one snippet is kept the assembled prompt stays within the budget — but the
base prompt with no snippets kept may still exceed it, so the assembled
prompt does not exceed the budget only in that conditional sense.  Without
the `OLLAMA_CONTEXT_SNIPPETS` environment variable no snippets are kept at
all. -/
theorem createPromptContextSnippets_budget (promptLen : List String → Nat)
    (snippets : List String) :
    (∃ t, createPromptContextSnippets true promptLen snippets ++ t = snippets)
    ∧ (createPromptContextSnippets true promptLen snippets ≠ [] →
        promptLen (createPromptContextSnippets true promptLen snippets)
          ≤ maxPromptChars)
    ∧ (∀ s rest2,
        snippets
          = createPromptContextSnippets true promptLen snippets ++ s :: rest2 →
        maxPromptChars
          < promptLen (createPromptContextSnippets true promptLen snippets
              ++ [s]))
    ∧ createPromptContextSnippets false promptLen snippets = [] := by
  have hdef : createPromptContextSnippets true promptLen snippets
      = addSnippetsGo promptLen maxPromptChars [] snippets := by
    simp [createPromptContextSnippets]
  obtain ⟨t, ht, hcase⟩ := addSnippetsGo_shape promptLen maxPromptChars snippets []
  rw [List.nil_append] at ht
  refine ⟨?_, ?_, ?_, rfl⟩
  · refine ⟨snippets.drop t.length, ?_⟩
    rw [hdef, ht]
    rcases hcase with h1 | ⟨s2, rest2, hr, _⟩
    · rw [h1]; simp
    · rw [hr]; simp
  · intro hne
    have := addSnippetsGo_budget promptLen maxPromptChars snippets []
      (Or.inl rfl)
    rw [hdef]
    rcases this with h | h
    · rw [hdef] at hne; exact absurd h hne
    · exact h
  · intro s rest2 hsplit
    rw [hdef] at hsplit ⊢
    rw [ht] at hsplit ⊢
    rcases hcase with h1 | ⟨s2, rest2b, hr, hlen⟩
    · exfalso
      rw [← h1] at hsplit
      have : t.length = t.length + (s :: rest2).length := by
        conv_lhs => rw [hsplit]
        rw [List.length_append]
      simp at this
    · rw [List.nil_append] at hlen
      rw [hr] at hsplit
      have hcons : s2 :: rest2b = s :: rest2 :=
        List.append_cancel_left hsplit
      have hs : s2 = s := (List.cons.injEq _ _ _ _ ▸ hcons).1
      rw [← hs]
      exact hlen

/-- Witness for claim C6 (amended) at a concrete input: with a 100
character base prompt and snippets `["aaa", "bbb"]`, both snippets are kept
and the assembled prompt stays within the 1234 character budget. -/
theorem createPromptContextSnippets_budget_witness :
    createPromptContextSnippets true promptLenShortBase ["aaa", "bbb"] ≠ []
    ∧ promptLenShortBase
        (createPromptContextSnippets true promptLenShortBase ["aaa", "bbb"])
      ≤ maxPromptChars :=
  ⟨by decide,
   (createPromptContextSnippets_budget promptLenShortBase
      ["aaa", "bbb"]).2.1 (by decide)⟩

/-! ## Claim theorems: per-language document filters -/

/-- Claim C9: in `getInlineCompletionItemProviderFilters` a language yields
a document filter (scheme `"file"`) exactly when its enablement is true,
where enablement is the per-language configuration entry only if the
language is both absent from the `DISABLED_LANGUAGES` set and present in
the per-language configuration, and otherwise is the wildcard `"*"` value;
in particular the disabled language `"scminput"` always falls back to the
wildcard value (even when it has its own entry), so it still receives a
filter whenever `"*"` is enabled. -/
theorem getInlineCompletionItemProviderFilters_characterization
    (autocompleteLanguages : List (String × Bool)) (languageIds : List String)
    (language : String) :
    (DocumentFilter.mk language ("file")
        ∈ getInlineCompletionItemProviderFilters autocompleteLanguages
            languageIds
      ↔ language ∈ languageIds
        ∧ languageEnabled autocompleteLanguages language = true)
    ∧ languageEnabled autocompleteLanguages ("scminput")
      = (lookupBool autocompleteLanguages ("*")).getD false := by
  constructor
  · induction languageIds with
    | nil => simp [getInlineCompletionItemProviderFilters]
    | cons l rest ih =>
        simp only [getInlineCompletionItemProviderFilters, List.mem_append,
          List.mem_cons, ih]
        by_cases hl : languageEnabled autocompleteLanguages l = true
        · rw [if_pos hl]
          simp only [List.mem_singleton, DocumentFilter.mk.injEq]
          constructor
          · rintro (⟨h1, h2⟩ | ⟨hmem, hen⟩)
            · subst h1; exact ⟨Or.inl rfl, hl⟩
            · exact ⟨Or.inr hmem, hen⟩
          · rintro ⟨h | hmem, hen⟩
            · subst h; exact Or.inl ⟨rfl, trivial⟩
            · exact Or.inr ⟨hmem, hen⟩
        · rw [if_neg hl]
          simp only [List.not_mem_nil, false_or]
          constructor
          · rintro ⟨hmem, hen⟩
            exact ⟨Or.inr hmem, hen⟩
          · rintro ⟨h | hmem, hen⟩
            · subst h; exact absurd hen hl
            · exact ⟨hmem, hen⟩
  · have hdis : ("scminput" ∈ DISABLED_LANGUAGES) := by decide
    simp [languageEnabled, hdis]
